import Mathlib

/-!
Verification of the AVBD-BABYLON rigid-body core.

The repository ships two snapshots of its physics core, concatenated in the
source files:

* an AVBD (position-based) variant: `Solver` in `bSolver.ts` together with the
  first `CubeRigidbody` class of `bCubeRigid.ts`;
* a momentum-based variant: the second `CubeRigidbody` class of
  `bCubeRigid.ts` (fields `linearMomentum` / `angularMomentum`).

Both are embedded below.  Numbers are modelled as exact rationals (and, for
the quaternion-normalisation claim, as reals), i.e. the idealised arithmetic
the code approximates in IEEE doubles.  The helper module `mathHelpers.ts`
(`integrateQuat`, `omegaFromQuatDelta`, `mat3Diag`) is imported by the source
but absent from the tree; where its behaviour could matter the development
abstracts over it, and where the spec pins it down it is modelled from the
spec (marked in the doc comment).
-/

/-- Three-component vector over a field, modelling gl-matrix `vec3`. -/
@[ext] structure V3 (α : Type) where
  x : α
  y : α
  z : α
deriving DecidableEq, Repr

namespace V3

variable {α : Type} [Field α]

instance : Zero (V3 α) := ⟨⟨0, 0, 0⟩⟩

instance : Add (V3 α) := ⟨fun a b => ⟨a.x + b.x, a.y + b.y, a.z + b.z⟩⟩

instance : Sub (V3 α) := ⟨fun a b => ⟨a.x - b.x, a.y - b.y, a.z - b.z⟩⟩

/-- Scaling a vector by a scalar (gl-matrix `vec3.scale`). -/
def smul (v : V3 α) (s : α) : V3 α := ⟨v.x * s, v.y * s, v.z * s⟩

/-- Dot product (gl-matrix `vec3.dot`). -/
def dot (a b : V3 α) : α := a.x * b.x + a.y * b.y + a.z * b.z

/-- Cross product (gl-matrix `vec3.cross`). -/
def cross (a b : V3 α) : V3 α :=
  ⟨a.y * b.z - a.z * b.y, a.z * b.x - a.x * b.z, a.x * b.y - a.y * b.x⟩

/-- Squared length (gl-matrix `vec3.squaredLength`). -/
def sqLen (v : V3 α) : α := v.x * v.x + v.y * v.y + v.z * v.z

end V3

/-- Quaternion with components in gl-matrix order `(x, y, z, w)`. -/
@[ext] structure Q4 (α : Type) where
  x : α
  y : α
  z : α
  w : α
deriving DecidableEq, Repr

namespace Q4

variable {α : Type} [Field α]

/-- Identity quaternion, the value of gl-matrix `quat.create()`. -/
def id' : Q4 α := ⟨0, 0, 0, 1⟩

/-- Squared norm of a quaternion. -/
def normSq (q : Q4 α) : α := q.x * q.x + q.y * q.y + q.z * q.z + q.w * q.w

/-- Componentwise scaling of a quaternion. -/
def scale (q : Q4 α) (s : α) : Q4 α := ⟨q.x * s, q.y * s, q.z * s, q.w * s⟩

end Q4

/-- Row-major 3x3 matrix; `mIJ` is the entry at row `I`, column `J`.
gl-matrix stores `mat3` column-major, so its flat index `k` is entry
`(k % 3, k / 3)` here. -/
@[ext] structure M3 (α : Type) where
  m00 : α
  m01 : α
  m02 : α
  m10 : α
  m11 : α
  m12 : α
  m20 : α
  m21 : α
  m22 : α
deriving DecidableEq, Repr

namespace M3

variable {α : Type} [Field α]

/-- Diagonal matrix.  `Modelled from the spec:` this is `mat3Diag` from the
missing `mathHelpers.ts`; the source comments use it exactly as the diagonal
matrix builder (`I0 = (1/12) m * diag(...)`). -/
def diag (a b c : α) : M3 α := ⟨a, 0, 0, 0, b, 0, 0, 0, c⟩

/-- Identity matrix, the value of gl-matrix `mat3.create()`. -/
def id' : M3 α := diag 1 1 1

/-- Matrix transpose (gl-matrix `mat3.transpose`). -/
def transpose (m : M3 α) : M3 α :=
  ⟨m.m00, m.m10, m.m20, m.m01, m.m11, m.m21, m.m02, m.m12, m.m22⟩

/-- Matrix product (gl-matrix `mat3.multiply(out, a, b)` composes `a` after
`b`; in row-major form that is the ordinary product `a * b`). -/
def mul (a b : M3 α) : M3 α :=
  ⟨a.m00 * b.m00 + a.m01 * b.m10 + a.m02 * b.m20,
   a.m00 * b.m01 + a.m01 * b.m11 + a.m02 * b.m21,
   a.m00 * b.m02 + a.m01 * b.m12 + a.m02 * b.m22,
   a.m10 * b.m00 + a.m11 * b.m10 + a.m12 * b.m20,
   a.m10 * b.m01 + a.m11 * b.m11 + a.m12 * b.m21,
   a.m10 * b.m02 + a.m11 * b.m12 + a.m12 * b.m22,
   a.m20 * b.m00 + a.m21 * b.m10 + a.m22 * b.m20,
   a.m20 * b.m01 + a.m21 * b.m11 + a.m22 * b.m21,
   a.m20 * b.m02 + a.m21 * b.m12 + a.m22 * b.m22⟩

/-- Matrix-vector product (gl-matrix `vec3.transformMat3`). -/
def mulVec (m : M3 α) (v : V3 α) : V3 α :=
  ⟨m.m00 * v.x + m.m01 * v.y + m.m02 * v.z,
   m.m10 * v.x + m.m11 * v.y + m.m12 * v.z,
   m.m20 * v.x + m.m21 * v.y + m.m22 * v.z⟩

/-- Rotation matrix of a quaternion (gl-matrix `mat3.fromQuat`, converted
from its column-major layout to row-major). -/
def fromQuat (q : Q4 α) : M3 α :=
  let x2 := q.x + q.x
  let y2 := q.y + q.y
  let z2 := q.z + q.z
  let xx := q.x * x2
  let yx := q.y * x2
  let yy := q.y * y2
  let zx := q.z * x2
  let zy := q.z * y2
  let zz := q.z * z2
  let wx := q.w * x2
  let wy := q.w * y2
  let wz := q.w * z2
  ⟨1 - yy - zz, yx - wz, zx + wy,
   yx + wz, 1 - xx - zz, zy - wx,
   zx - wy, zy + wx, 1 - xx - yy⟩

end M3

/-- Guarded reciprocal used by both variants' `refreshInertiaCaches`:
the ternary `(d > 0) ? 1 / d : 0` on a diagonal inertia entry. -/
def guardedInv {α : Type} [LinearOrderedField α]
    [DecidableRel ((· < ·) : α → α → Prop)] (d : α) : α :=
  if 0 < d then 1 / d else 0

/-- Local inverse-inertia diagonal `I0inv` built by `refreshInertiaCaches`
from the column-major diagonal entries `[0]`, `[4]`, `[8]` of the local
inertia tensor. -/
def I0invDiag {α : Type} [LinearOrderedField α]
    [DecidableRel ((· < ·) : α → α → Prop)] (I : M3 α) : M3 α :=
  M3.diag (guardedInv I.m00) (guardedInv I.m11) (guardedInv I.m22)

/-- Euler step of the quaternion kinematic derivative, the unnormalised
quaternion computed by the momentum-variant `integrateOrientation`
(`bCubeRigid.ts`, momentum variant): `q + dt * (1/2) * (0, omega) x q`
written out in the source's component formulas. -/
def integrateRawQuat {α : Type} [Field α] (q : Q4 α) (ω : V3 α) (dt : α) : Q4 α :=
  let cx := ω.y * q.z - ω.z * q.y
  let cy := ω.z * q.x - ω.x * q.z
  let cz := ω.x * q.y - ω.y * q.x
  let d := ω.x * q.x + ω.y * q.y + ω.z * q.z
  let dx := (1 / 2 : α) * (q.w * ω.x + cx)
  let dy := (1 / 2 : α) * (q.w * ω.y + cy)
  let dz := (1 / 2 : α) * (q.w * ω.z + cz)
  let dw := (1 / 2 : α) * (-d)
  ⟨q.x + dx * dt, q.y + dy * dt, q.z + dz * dt, q.w + dw * dt⟩

/-- Renormalisation step, the semantics of gl-matrix `quat.normalize`:
`len = |q|^2; if (len > 0) len = 1/sqrt(len); out = q * len`.  The square
root is passed in as a function so that the definition stays executable at
any field; the real development instantiates it with `Real.sqrt`. -/
def glNormalize {α : Type} [LinearOrderedField α]
    [DecidableRel ((· < ·) : α → α → Prop)] (sq : α → α) (q : Q4 α) : Q4 α :=
  let len := q.normSq
  if 0 < len then q.scale (1 / sq len) else q.scale len

namespace Momentum

/-- State of the momentum-based `CubeRigidbody` (second class in
`bCubeRigid.ts`).  Rendering handles (`_mesh`, `material`, `renderMethod`)
are out of scope per the spec and omitted; the `forces : bForce[]` list is
kept as a list of opaque identifiers. -/
structure CubeRigidbody (α : Type) where
  position : V3 α
  rotation : Q4 α
  rotationMatrix : M3 α
  velocity : V3 α
  angularVelocity : V3 α
  previousVelocities : List (V3 α)
  previousAngularVelocities : List (V3 α)
  size : V3 α
  mass : α
  linearMomentum : V3 α
  angularMomentum : V3 α
  InertiaTensor : M3 α
  Iinv : M3 α
  torqueAccum : V3 α
  friction : α
  detectionRadius : α
  forces : List Nat
deriving DecidableEq

variable {α : Type} [LinearOrderedField α] [DecidableEq α]
variable [DecidableRel ((· < ·) : α → α → Prop)]
variable [DecidableRel ((· ≤ ·) : α → α → Prop)]

/-- Predicate form of the `isImmovable` getter: `!(mass > 0)`. -/
def isImmovable (b : CubeRigidbody α) : Prop := ¬ 0 < b.mass

/-- Momentum-variant `refreshInertiaCaches(updateAngularMomentum)`:
static bodies get zero tensors and an early return; otherwise the world
inverse inertia `R * I0inv * R^T` is cached and, on request, the angular
momentum is re-derived as `L = I_world * omega`. -/
def refreshInertiaCaches (sync : Bool) (b : CubeRigidbody α) : CubeRigidbody α :=
  if b.mass ≤ 0 then
    { b with InertiaTensor := M3.diag 0 0 0, Iinv := M3.diag 0 0 0 }
  else
    let R := M3.fromQuat b.rotation
    let Rt := R.transpose
    let I0inv := I0invDiag b.InertiaTensor
    let b' := { b with rotationMatrix := R, Iinv := (R.mul I0inv).mul Rt }
    if sync then
      let Iworld := (R.mul b.InertiaTensor).mul Rt
      { b' with angularMomentum := Iworld.mulVec b.angularVelocity }
    else b'

/-- Momentum-variant constructor.  The square root used for
`detectionRadius = 0.5 * |size|` is passed in as `sq`. -/
def mkCubeRigidbody (sq : α → α) (size : V3 α) (density friction : α)
    (position velocity angularVelocity : V3 α) (rotation : Q4 α) :
    CubeRigidbody α :=
  let volume := size.x * size.y * size.z
  let mass := density * volume
  let x2 := size.x * size.x
  let y2 := size.y * size.y
  let z2 := size.z * size.z
  let k := (1 / 12 : α) * mass
  let b0 : CubeRigidbody α :=
    { position := position
      rotation := rotation
      rotationMatrix := M3.id'
      velocity := velocity
      angularVelocity := angularVelocity
      previousVelocities := [velocity]
      previousAngularVelocities := [angularVelocity]
      size := size
      mass := mass
      linearMomentum := 0
      angularMomentum := 0
      InertiaTensor := M3.diag (k * (y2 + z2)) (k * (x2 + z2)) (k * (x2 + y2))
      Iinv := M3.id'
      torqueAccum := 0
      friction := friction
      detectionRadius := sq (size.dot size) * (1 / 2 : α)
      forces := [] }
  let b1 := refreshInertiaCaches true b0
  { b1 with linearMomentum := velocity.smul mass }

/-- Momentum-variant `applyImpulse(pointWorld, impulseWorld)`: no-op on
static bodies; otherwise `p += J; v = p/m; L += r x J; omega = Iinv * L`. -/
def applyImpulse (pointW impulseW : V3 α) (b : CubeRigidbody α) : CubeRigidbody α :=
  if 0 < b.mass then
    let p' := b.linearMomentum + impulseW
    let v' := p'.smul (1 / b.mass)
    let r := pointW - b.position
    let dL := V3.cross r impulseW
    let L' := b.angularMomentum + dL
    { b with linearMomentum := p', velocity := v',
             angularMomentum := L', angularVelocity := b.Iinv.mulVec L' }
  else b

/-- Momentum-variant `addTorque(torqueWorld)`. -/
def addTorque (τ : V3 α) (b : CubeRigidbody α) : CubeRigidbody α :=
  { b with torqueAccum := b.torqueAccum + τ }

/-- Momentum-variant `clearAccumulators()` (clears only the torque
accumulator; this variant has no force accumulator). -/
def clearAccumulators (b : CubeRigidbody α) : CubeRigidbody α :=
  { b with torqueAccum := 0 }

/-- Momentum-variant `addForceAtPoint(forceWorld, pointWorld)`: computes
`r = point - position` and accumulates only the torque `r x force`. -/
def addForceAtPoint (forceW pointW : V3 α) (b : CubeRigidbody α) : CubeRigidbody α :=
  let r := pointW - b.position
  let tau := V3.cross r forceW
  addTorque tau b

/-- Momentum-variant `setRotation(q, updateAngularMomentum)`. -/
def setRotation (q : Q4 α) (sync : Bool) (b : CubeRigidbody α) : CubeRigidbody α :=
  refreshInertiaCaches sync { b with rotation := q }

/-- Momentum-variant `integrateOrientation(dt)`: early return on zero
angular velocity, otherwise one Euler step of `q_dot = 1/2 (0, omega) x q`,
renormalisation, and a refresh of the inverse-inertia cache. -/
def integrateOrientation (sq : α → α) (dt : α) (b : CubeRigidbody α) : CubeRigidbody α :=
  if b.angularVelocity.sqLen = 0 then b
  else
    let q' := glNormalize sq (integrateRawQuat b.rotation b.angularVelocity dt)
    refreshInertiaCaches false { b with rotation := q' }

/-- Modelled from the spec: the momentum-variant `Solver.step` body update
(spec section 4.2), whose solver file is absent from the source tree.  For a
non-static body: record velocity history (capacity 10, oldest discarded),
`p += g*m*dt; v = p/m; x += v*dt`, `L += tau*dt` when the accumulated torque
is non-zero followed by `omega = Iinv*L`, `integrateOrientation(dt)`, and
clearing of the torque accumulator.  Static bodies are skipped. -/
def specStep (sq : α → α) (g : V3 α) (dt : α) (b : CubeRigidbody α) : CubeRigidbody α :=
  if 0 < b.mass then
    let pv := b.previousVelocities ++ [b.velocity]
    let pv := if 10 < pv.length then pv.tail else pv
    let pav := b.previousAngularVelocities ++ [b.angularVelocity]
    let pav := if 10 < pav.length then pav.tail else pav
    let b := { b with previousVelocities := pv, previousAngularVelocities := pav }
    let p' := b.linearMomentum + (g.smul b.mass).smul dt
    let v' := p'.smul (1 / b.mass)
    let b := { b with linearMomentum := p', velocity := v',
                      position := b.position + v'.smul dt }
    let b := if b.torqueAccum = (0 : V3 α) then b
             else { b with angularMomentum := b.angularMomentum + b.torqueAccum.smul dt }
    let b := { b with angularVelocity := b.Iinv.mulVec b.angularMomentum }
    let b := integrateOrientation sq dt b
    clearAccumulators b
  else b

/-- Mutating operations of the momentum-variant body, used to state the
"preserved by every mutating operation" claims. -/
inductive MOp (α : Type) where
  | applyImpulse (p J : V3 α)
  | addTorque (τ : V3 α)
  | clearAccumulators
  | addForceAtPoint (f p : V3 α)
  | setRotation (q : Q4 α) (sync : Bool)
  | integrateOrientation (sq : α → α) (dt : α)
  | refreshCaches (sync : Bool)
  | specStep (sq : α → α) (g : V3 α) (dt : α)

/-- Interpreter for `MOp`. -/
def applyMOp (b : CubeRigidbody α) : MOp α → CubeRigidbody α
  | .applyImpulse p J => applyImpulse p J b
  | .addTorque τ => addTorque τ b
  | .clearAccumulators => clearAccumulators b
  | .addForceAtPoint f p => addForceAtPoint f p b
  | .setRotation q sync => setRotation q sync b
  | .integrateOrientation sq dt => integrateOrientation sq dt b
  | .refreshCaches sync => refreshCaches b sync
  | .specStep sq g dt => specStep sq g dt b
where
  /-- Alias so that the match keeps the source argument order readable. -/
  refreshCaches (b : CubeRigidbody α) (sync : Bool) : CubeRigidbody α :=
    refreshInertiaCaches sync b

/-- Momentum/velocity consistency invariant: `velocity = linearMomentum * (1/mass)`,
the exact relation the spec asserts for movable bodies. -/
def linVelConsistent (b : CubeRigidbody α) : Prop :=
  b.velocity = b.linearMomentum.smul (1 / b.mass)

/-- Sequence of `integrateOrientation` calls: before each call the angular
velocity is set to an arbitrary value, as external code may do between
calls. -/
def integrateSeq (sq : α → α) (b : CubeRigidbody α) (l : List (V3 α × α)) :
    CubeRigidbody α :=
  l.foldl (fun b p => integrateOrientation sq p.2 { b with angularVelocity := p.1 }) b

end Momentum

namespace AVBD

/-- State of the AVBD (position-based) `CubeRigidbody` (first class in
`bCubeRigid.ts`), over exact rationals.  Rendering/debug handles are out of
scope per the spec and omitted; `forces : bForce[]` is kept as a list of
opaque identifiers. -/
structure CubeRigidbody where
  position : V3 ℚ
  rotation : Q4 ℚ
  rotationMatrix : M3 ℚ
  velocity : V3 ℚ
  angularVelocity : V3 ℚ
  previousVelocities : List (V3 ℚ)
  previousAngularVelocities : List (V3 ℚ)
  initialPosition : V3 ℚ
  initialRotation : Q4 ℚ
  inertialPosition : V3 ℚ
  inertialRotation : Q4 ℚ
  size : V3 ℚ
  mass : ℚ
  InertiaTensor : M3 ℚ
  Iinv : M3 ℚ
  forceAccum : V3 ℚ
  torqueAccum : V3 ℚ
  friction : ℚ
  detectionRadius : ℚ
  forces : List Nat
deriving DecidableEq

/-- Predicate form of the AVBD `isImmovable` getter: `!(mass > 0)`. -/
def isImmovable (b : CubeRigidbody) : Prop := ¬ 0 < b.mass

/-- AVBD-variant `refreshInertiaCaches()`: zero tensors and early return for
static bodies, otherwise cache `Iinv = R * I0inv * R^T` (and the rotation
matrix). -/
def refreshInertiaCaches (b : CubeRigidbody) : CubeRigidbody :=
  if b.mass ≤ 0 then
    { b with InertiaTensor := M3.diag 0 0 0, Iinv := M3.diag 0 0 0 }
  else
    let R := M3.fromQuat b.rotation
    { b with rotationMatrix := R,
             Iinv := (R.mul (I0invDiag b.InertiaTensor)).mul R.transpose }

/-- AVBD-variant constructor (`bCubeRigid.ts`, first class).  The square
root used for `detectionRadius = 0.5 * sqrt(sx^2 + sy^2 + sz^2)` is passed
in as `sq`. -/
def mkCubeRigidbody (sq : ℚ → ℚ) (size : V3 ℚ) (density friction : ℚ)
    (position velocity angularVelocity : V3 ℚ) (rotation : Q4 ℚ) :
    CubeRigidbody :=
  let volume := size.x * size.y * size.z
  let mass := density * volume
  let x2 := size.x * size.x
  let y2 := size.y * size.y
  let z2 := size.z * size.z
  let k := (1 / 12 : ℚ) * mass
  refreshInertiaCaches
    { position := position
      rotation := rotation
      rotationMatrix := M3.id'
      velocity := velocity
      angularVelocity := angularVelocity
      previousVelocities := [velocity]
      previousAngularVelocities := [angularVelocity]
      initialPosition := position
      initialRotation := rotation
      inertialPosition := position
      inertialRotation := rotation
      size := size
      mass := mass
      InertiaTensor := M3.diag (k * (y2 + z2)) (k * (x2 + z2)) (k * (x2 + y2))
      Iinv := M3.id'
      forceAccum := 0
      torqueAccum := 0
      friction := friction
      detectionRadius := (1 / 2 : ℚ) * sq (x2 + y2 + z2)
      forces := [] }

/-- AVBD-variant `addTorque(torqueWorld)`. -/
def addTorque (τ : V3 ℚ) (b : CubeRigidbody) : CubeRigidbody :=
  { b with torqueAccum := b.torqueAccum + τ }

/-- AVBD-variant `addForce(forceWorld)`. -/
def addForce (f : V3 ℚ) (b : CubeRigidbody) : CubeRigidbody :=
  { b with forceAccum := b.forceAccum + f }

/-- AVBD-variant `clearAccumulators()` (clears torque and force). -/
def clearAccumulators (b : CubeRigidbody) : CubeRigidbody :=
  { b with torqueAccum := 0, forceAccum := 0 }

/-- Quaternion helpers from the missing `mathHelpers.ts`
(`integrateQuat`, `omegaFromQuatDelta`).  Their bodies are not in the source
tree, and no claim depends on their values, so the development abstracts
over them: every theorem below holds for an arbitrary choice. -/
structure QOps where
  integrateQuat : Q4 ℚ → V3 ℚ → ℚ → Q4 ℚ
  omegaFromQuatDelta : Q4 ℚ → Q4 ℚ → ℚ → V3 ℚ

/-- Trivial instantiation of `QOps`, used to evaluate concrete scenarios. -/
def qops0 : QOps := ⟨fun q _ _ => q, fun _ _ _ => 0⟩

/-- Solver's `applyImpulseAtPoint(pointWorld, J, rb)`: unguarded linear
kick `v += J * (1/m)`, then cache refresh and angular kick
`omega += Iinv * (r x J)`. -/
def applyImpulseAtPoint (pointW J : V3 ℚ) (rb : CubeRigidbody) : CubeRigidbody :=
  let rb := { rb with velocity := rb.velocity + J.smul (1 / rb.mass) }
  let rb := refreshInertiaCaches rb
  let r := pointW - rb.position
  let dOmega := rb.Iinv.mulVec (V3.cross r J)
  { rb with angularVelocity := rb.angularVelocity + dOmega }

/-- First per-body loop of `Solver.step`: remember the initial pose, build
the translational and rotational inertial predictions, and perform the
adaptive-warmstart position write (which the solver loop overwrites).  The
code divides `dot(accel, gDir)` by `gLen = |gravity|` after scaling by
`gDir = gravity/gLen`; exactly, that is `dot(accel, gravity) / |gravity|^2`,
which is how it is written here to stay inside field arithmetic. -/
def pass1 (ops : QOps) (g : V3 ℚ) (dt : ℚ) (b : CubeRigidbody) : CubeRigidbody :=
  if 0 < b.mass then
    let b := { b with initialPosition := b.position, initialRotation := b.rotation }
    let extAcc := g + b.forceAccum.smul (1 / b.mass)
    let b := { b with inertialPosition :=
                 b.position + b.velocity.smul dt + extAcc.smul (dt * dt) }
    let b := refreshInertiaCaches b
    let alpha := b.Iinv.mulVec b.torqueAccum
    let omegaPredict := b.angularVelocity + alpha.smul dt
    let b := { b with inertialRotation := ops.integrateQuat b.rotation omegaPredict dt }
    let prevV := b.previousVelocities.getLast?.getD b.velocity
    let accel := (b.velocity - prevV).smul (1 / max dt (1 / 1000000 : ℚ))
    let gSq := g.sqLen
    let accelWeight := if 0 < gSq then max 0 (min 1 (accel.dot g / gSq)) else 0
    { b with position := b.initialPosition + b.velocity.smul dt
                         + g.smul (accelWeight * dt * dt) }
  else b

/-- Second per-body loop of `Solver.step` (the "solver loop", which with no
constraints implemented just adopts the inertial pose). -/
def pass2 (b : CubeRigidbody) : CubeRigidbody :=
  if 0 < b.mass then
    { b with position := b.inertialPosition, rotation := b.inertialRotation }
  else b

/-- History bound of `Solver.step`: `push` the new entry, then `shift` off
the oldest when the buffer exceeds capacity 10. -/
def capHistory (l : List (V3 ℚ)) : List (V3 ℚ) :=
  if 10 < l.length then l.tail else l

/-- Third per-body loop of `Solver.step`: push the velocity histories
(capacity 10, oldest discarded), derive end-of-step velocities for movable
bodies, and clear the per-step accumulators. -/
def pass3 (ops : QOps) (dt : ℚ) (b : CubeRigidbody) : CubeRigidbody :=
  let b1 := { b with
    previousVelocities := capHistory (b.previousVelocities ++ [b.velocity]),
    previousAngularVelocities :=
      capHistory (b.previousAngularVelocities ++ [b.angularVelocity]) }
  let b2 :=
    if 0 < b1.mass then
      { b1 with velocity := (b1.position - b1.initialPosition).smul (1 / dt),
                angularVelocity := ops.omegaFromQuatDelta b1.initialRotation b1.rotation dt }
    else b1
  clearAccumulators b2

/-- Net effect of one `Solver.step` on a single body (the bodies do not
interact, so the three loops compose per body). -/
def stepBody (ops : QOps) (g : V3 ℚ) (dt : ℚ) (b : CubeRigidbody) : CubeRigidbody :=
  pass3 ops dt (pass2 (pass1 ops g dt b))

/-- `Solver.step(dt)`: the three sequential loops over the body list. -/
def stepBodies (ops : QOps) (g : V3 ℚ) (dt : ℚ) (bodies : List CubeRigidbody) :
    List CubeRigidbody :=
  (((bodies.map (pass1 ops g dt)).map pass2).map (pass3 ops dt))

/-- Solver's `applyImpulseAtCenterALL(J)`: a central impulse on every body. -/
def applyImpulseAtCenterALL (J : V3 ℚ) (bodies : List CubeRigidbody) :
    List CubeRigidbody :=
  bodies.map (fun rb => applyImpulseAtPoint rb.position J rb)

/-- Opaque stand-in for the Babylon rendering context required by
`Solver.getInstance`; the core never reads anything from it that affects
simulation state. -/
structure BabylonContext where
  id : Nat
deriving DecidableEq

/-- Solver state (`bSolver.ts`): body list, gravity, fixed timestep (the
code guards `fixedDt != null`, hence an `Option`), substep cap, and the
leftover-time accumulator `_accum`. -/
structure Solver where
  context : BabylonContext
  rigidbodies : List CubeRigidbody
  gravity : V3 ℚ
  fixedDt : Option ℚ
  maxSubsteps : Nat
  accum : ℚ
deriving DecidableEq

/-- Private `Solver` constructor: field initialisers of the class plus the
stored context. -/
def mkSolver (c : BabylonContext) : Solver :=
  { context := c
    rigidbodies := []
    gravity := ⟨0, -(981 / 100 : ℚ), 0⟩
    fixedDt := some (1 / 60 : ℚ)
    maxSubsteps := 2
    accum := 0 }

/-- `Solver.getInstance(bcontext)` acting on the static `Solver.instance`
cell: if no instance exists, a null context throws, otherwise a solver is
constructed and stored; an existing instance is returned unchanged whatever
the argument.  Returns the call's result and the new cell content. -/
def getInstance (inst : Option Solver) (ctx : Option BabylonContext) :
    Except String Solver × Option Solver :=
  match inst with
  | some s => (Except.ok s, some s)
  | none =>
    match ctx with
    | none => (Except.error "BabylonContext is required", none)
    | some c => (Except.ok (mkSolver c), some (mkSolver c))

/-- Observable events of one `update` call: a physics step or a per-body
draw callback. -/
inductive Ev where
  | step
  | draw
deriving DecidableEq

/-- Substepping loop of `Solver.update`:
`while (accum >= fixedDt && n < maxSubsteps) { step(fixedDt); accum -= fixedDt; n++ }`.
The remaining-iteration bound `n < maxSubsteps` is structural fuel, which is
faithful because the real loop also tests it each iteration.  Returns the
final accumulator, the stepped bodies, and the number of executed steps. -/
def substeps (ops : QOps) (g : V3 ℚ) (fd : ℚ) :
    Nat → ℚ → List CubeRigidbody → ℚ × List CubeRigidbody × Nat
  | 0, acc, bs => (acc, bs, 0)
  | r + 1, acc, bs =>
    if fd ≤ acc then
      let out := substeps ops g fd r (acc - fd) (stepBodies ops g fd bs)
      (out.1, out.2.1, out.2.2 + 1)
    else (acc, bs, 0)

/-- `Solver.update()` with the frame's real delta passed in (the code reads
it from the engine as `getDeltaTime() / 1000`).  Fixed-step branch when
`fixedDt` is non-null, otherwise a single variable step; afterwards every
body's draw callback runs.  Returns the new solver state, the number of
`step` calls, and the event trace of the call. -/
def update (ops : QOps) (realDt : ℚ) (s : Solver) : Solver × Nat × List Ev :=
  match s.fixedDt with
  | some fd =>
    let out := substeps ops s.gravity fd s.maxSubsteps (s.accum + realDt) s.rigidbodies
    ({ s with accum := out.1, rigidbodies := out.2.1 }, out.2.2,
      List.replicate out.2.2 Ev.step ++ List.replicate out.2.1.length Ev.draw)
  | none =>
    let bs := stepBodies ops s.gravity realDt s.rigidbodies
    ({ s with rigidbodies := bs }, 1,
      Ev.step :: List.replicate bs.length Ev.draw)

/-- Operations of the AVBD variant that the static-body claim quantifies
over: one solver step (its per-body effect), an impulse at a world point,
and torque accumulation. -/
inductive AOp where
  | astep (ops : QOps) (g : V3 ℚ) (dt : ℚ)
  | impulseAt (p J : V3 ℚ)
  | atorque (τ : V3 ℚ)

/-- Interpreter for `AOp`. -/
def applyAOp (b : CubeRigidbody) : AOp → CubeRigidbody
  | .astep ops g dt => stepBody ops g dt b
  | .impulseAt p J => applyImpulseAtPoint p J b
  | .atorque τ => addTorque τ b

end AVBD

/-- Operations of the momentum variant that the static-body claim
quantifies over: `applyImpulse`, `addTorque`, and the (spec-modelled)
momentum step. -/
inductive MStaticOp (α : Type) where
  | impulse (p J : V3 α)
  | torque (τ : V3 α)
  | sstep (sq : α → α) (g : V3 α) (dt : α)

/-- Interpreter for `MStaticOp`. -/
def applyMStaticOp {α : Type} [LinearOrderedField α] [DecidableEq α]
    [DecidableRel ((· < ·) : α → α → Prop)]
    [DecidableRel ((· ≤ ·) : α → α → Prop)]
    (b : Momentum.CubeRigidbody α) : MStaticOp α → Momentum.CubeRigidbody α
  | .impulse p J => Momentum.applyImpulse p J b
  | .torque τ => Momentum.addTorque τ b
  | .sstep sq g dt => Momentum.specStep sq g dt b

/-- Dummy square root used when evaluating concrete rational scenarios; it
only ever feeds the unused `detectionRadius` and `quat.normalize` inputs of
those scenarios. -/
def sqrt0 : ℚ → ℚ := fun _ => 0

/-- Default gravity of the solver, `(0, -9.81, 0)`. -/
def gDefault : V3 ℚ := ⟨0, -(981 / 100 : ℚ), 0⟩

/-- Unit cube of density 1 (mass 1) at rest, as built in `app.ts`. -/
def unitCubeA : AVBD.CubeRigidbody :=
  AVBD.mkCubeRigidbody sqrt0 ⟨1, 1, 1⟩ 1 (1 / 2) ⟨0, 3, 0⟩ 0 0 Q4.id'

/-- Unit cube with a pending external force, reachable from `unitCubeA` by
the public `addForce` call. -/
def forcedCubeA : AVBD.CubeRigidbody := AVBD.addForce ⟨600, 0, 0⟩ unitCubeA

/-- Density-0 floor (mass 0, `isImmovable`), as built in `app.ts`, AVBD
variant. -/
def staticFloorA : AVBD.CubeRigidbody :=
  AVBD.mkCubeRigidbody sqrt0 ⟨10, 1, 10⟩ 0 (4 / 5) ⟨0, -(1 / 2 : ℚ), 0⟩ 0 0 Q4.id'

/-- Density-0 floor (mass 0, `isImmovable`), momentum variant. -/
def staticFloorM : Momentum.CubeRigidbody ℚ :=
  Momentum.mkCubeRigidbody sqrt0 ⟨10, 1, 10⟩ 0 (4 / 5) ⟨0, -(1 / 2 : ℚ), 0⟩ 0 0 Q4.id'

/-- Unit cube of density 1 at rest, momentum variant. -/
def unitCubeM : Momentum.CubeRigidbody ℚ :=
  Momentum.mkCubeRigidbody sqrt0 ⟨1, 1, 1⟩ 1 (1 / 2) ⟨0, 3, 0⟩ 0 0 Q4.id'

/-- Concrete solver state used to evaluate the scheduler scenarios:
fresh singleton solver with an empty body list. -/
def solver0 : AVBD.Solver := AVBD.mkSolver ⟨0⟩

/-- Movable body with a degenerate (non-positive) local inertia entry, used
to exercise the guarded reciprocal of `refreshInertiaCaches`. -/
def degenM : Momentum.CubeRigidbody ℚ :=
  { position := 0
    rotation := Q4.id'
    rotationMatrix := M3.id'
    velocity := 0
    angularVelocity := 0
    previousVelocities := []
    previousAngularVelocities := []
    size := ⟨1, 0, 1⟩
    mass := 1
    linearMomentum := 0
    angularMomentum := 0
    InertiaTensor := M3.diag 0 2 2
    Iinv := M3.id'
    torqueAccum := 0
    friction := 0
    detectionRadius := 0
    forces := [] }

section BasicLemmas

variable {α : Type} [Field α]

@[simp] theorem V3.zero_x : (0 : V3 α).x = 0 := rfl

@[simp] theorem V3.zero_y : (0 : V3 α).y = 0 := rfl

@[simp] theorem V3.zero_z : (0 : V3 α).z = 0 := rfl

@[simp] theorem V3.add_x (a b : V3 α) : (a + b).x = a.x + b.x := rfl

@[simp] theorem V3.add_y (a b : V3 α) : (a + b).y = a.y + b.y := rfl

@[simp] theorem V3.add_z (a b : V3 α) : (a + b).z = a.z + b.z := rfl

@[simp] theorem V3.sub_x (a b : V3 α) : (a - b).x = a.x - b.x := rfl

@[simp] theorem V3.sub_y (a b : V3 α) : (a - b).y = a.y - b.y := rfl

@[simp] theorem V3.sub_z (a b : V3 α) : (a - b).z = a.z - b.z := rfl

@[simp] theorem V3.smul_x (a : V3 α) (s : α) : (a.smul s).x = a.x * s := rfl

@[simp] theorem V3.smul_y (a : V3 α) (s : α) : (a.smul s).y = a.y * s := rfl

@[simp] theorem V3.smul_z (a : V3 α) (s : α) : (a.smul s).z = a.z * s := rfl

theorem V3.zero_def : (0 : V3 α) = ⟨0, 0, 0⟩ := rfl

theorem V3.add_mk (a b c d e f : α) :
    (⟨a, b, c⟩ + ⟨d, e, f⟩ : V3 α) = ⟨a + d, b + e, c + f⟩ := rfl

theorem V3.sub_mk (a b c d e f : α) :
    (⟨a, b, c⟩ - ⟨d, e, f⟩ : V3 α) = ⟨a - d, b - e, c - f⟩ := rfl

theorem V3.smul_zero_vec (s : α) : (0 : V3 α).smul s = 0 := by
  ext <;> simp

theorem V3.add_zero_vec (a : V3 α) : a + 0 = a := by
  ext <;> simp

theorem V3.sub_self_vec (a : V3 α) : a - a = 0 := by
  ext <;> simp

theorem V3.cross_zero_left (b : V3 α) : V3.cross 0 b = 0 := by
  ext <;> simp [V3.cross]

theorem M3.mulVec_zero_vec (m : M3 α) : m.mulVec 0 = 0 := by
  ext <;> simp [M3.mulVec]

theorem V3.smul_add_dist (a b : V3 α) (s : α) :
    (a + b).smul s = a.smul s + b.smul s := by
  ext <;> simp [add_mul]

end BasicLemmas

/-- C9: in the momentum-based variant, `addForceAtPoint(force, point)` adds
exactly the torque contribution `(point - position) x force` to the torque
accumulator and changes nothing else — the linear force contribution is
discarded entirely. -/
theorem C9_addForceAtPoint_torque_only
    (b : Momentum.CubeRigidbody ℚ) (f p : V3 ℚ) :
    Momentum.addForceAtPoint f p b
      = { b with torqueAccum := b.torqueAccum + V3.cross (p - b.position) f } :=
  rfl

/-- C10: `Solver.getInstance` constructs a solver only when the stored
instance cell is empty; once an instance exists every call returns that
very instance and leaves the cell unchanged, whatever context argument (even
none) is supplied, so all callers share one solver. -/
theorem C10_getInstance_singleton :
    (∀ (s : AVBD.Solver) (ctx : Option AVBD.BabylonContext),
        AVBD.getInstance (some s) ctx = (Except.ok s, some s))
    ∧ (∀ c : AVBD.BabylonContext,
        AVBD.getInstance none (some c)
          = (Except.ok (AVBD.mkSolver c), some (AVBD.mkSolver c)))
    ∧ (∀ (c : AVBD.BabylonContext) (ctx2 : Option AVBD.BabylonContext),
        AVBD.getInstance (AVBD.getInstance none (some c)).2 ctx2
          = (Except.ok (AVBD.mkSolver c), (AVBD.getInstance none (some c)).2)) :=
  ⟨fun _ _ => rfl, fun _ => rfl, fun _ _ => rfl⟩

section FieldPreservation

variable {α : Type} [LinearOrderedField α] [DecidableEq α]
variable [DecidableRel ((· < ·) : α → α → Prop)]
variable [DecidableRel ((· ≤ ·) : α → α → Prop)]

theorem Momentum.refresh_mass (sync : Bool) (b : Momentum.CubeRigidbody α) :
    (Momentum.refreshInertiaCaches sync b).mass = b.mass := by
  unfold Momentum.refreshInertiaCaches
  split
  · rfl
  · cases sync <;> rfl

theorem Momentum.refresh_position (sync : Bool) (b : Momentum.CubeRigidbody α) :
    (Momentum.refreshInertiaCaches sync b).position = b.position := by
  unfold Momentum.refreshInertiaCaches
  split
  · rfl
  · cases sync <;> rfl

theorem Momentum.refresh_rotation (sync : Bool) (b : Momentum.CubeRigidbody α) :
    (Momentum.refreshInertiaCaches sync b).rotation = b.rotation := by
  unfold Momentum.refreshInertiaCaches
  split
  · rfl
  · cases sync <;> rfl

theorem Momentum.refresh_velocity (sync : Bool) (b : Momentum.CubeRigidbody α) :
    (Momentum.refreshInertiaCaches sync b).velocity = b.velocity := by
  unfold Momentum.refreshInertiaCaches
  split
  · rfl
  · cases sync <;> rfl

theorem Momentum.refresh_angularVelocity (sync : Bool) (b : Momentum.CubeRigidbody α) :
    (Momentum.refreshInertiaCaches sync b).angularVelocity = b.angularVelocity := by
  unfold Momentum.refreshInertiaCaches
  split
  · rfl
  · cases sync <;> rfl

theorem Momentum.refresh_linearMomentum (sync : Bool) (b : Momentum.CubeRigidbody α) :
    (Momentum.refreshInertiaCaches sync b).linearMomentum = b.linearMomentum := by
  unfold Momentum.refreshInertiaCaches
  split
  · rfl
  · cases sync <;> rfl

theorem Momentum.refresh_torqueAccum (sync : Bool) (b : Momentum.CubeRigidbody α) :
    (Momentum.refreshInertiaCaches sync b).torqueAccum = b.torqueAccum := by
  unfold Momentum.refreshInertiaCaches
  split
  · rfl
  · cases sync <;> rfl

theorem AVBD.refreshA_position (b : AVBD.CubeRigidbody) :
    (AVBD.refreshInertiaCaches b).position = b.position := by
  unfold AVBD.refreshInertiaCaches
  split <;> rfl

theorem AVBD.refreshA_rotation (b : AVBD.CubeRigidbody) :
    (AVBD.refreshInertiaCaches b).rotation = b.rotation := by
  unfold AVBD.refreshInertiaCaches
  split <;> rfl

theorem AVBD.refreshA_velocity (b : AVBD.CubeRigidbody) :
    (AVBD.refreshInertiaCaches b).velocity = b.velocity := by
  unfold AVBD.refreshInertiaCaches
  split <;> rfl

theorem AVBD.refreshA_angularVelocity (b : AVBD.CubeRigidbody) :
    (AVBD.refreshInertiaCaches b).angularVelocity = b.angularVelocity := by
  unfold AVBD.refreshInertiaCaches
  split <;> rfl

theorem AVBD.refreshA_mass (b : AVBD.CubeRigidbody) :
    (AVBD.refreshInertiaCaches b).mass = b.mass := by
  unfold AVBD.refreshInertiaCaches
  split <;> rfl

end FieldPreservation

/-- C8: `refreshInertiaCaches` never divides by zero.  For `mass <= 0` both
the local inertia tensor and the cached world inverse are set to the zero
matrix and the function returns at once (no other field changes, whatever
the sync flag); for a movable body the cached world inverse is
`R * I0inv * R^T` where each non-positive diagonal entry of the local
inertia tensor contributes an inverse entry of exactly `0` through the
guarded reciprocal. -/
theorem C8_refreshInertiaCaches_guarded
    (b : Momentum.CubeRigidbody ℚ) (sync : Bool) :
    (b.mass ≤ 0 →
      Momentum.refreshInertiaCaches sync b
        = { b with InertiaTensor := M3.diag 0 0 0, Iinv := M3.diag 0 0 0 })
    ∧ (0 < b.mass →
      (Momentum.refreshInertiaCaches sync b).Iinv
          = ((M3.fromQuat b.rotation).mul (I0invDiag b.InertiaTensor)).mul
              (M3.fromQuat b.rotation).transpose
        ∧ (b.InertiaTensor.m00 ≤ 0 → (I0invDiag b.InertiaTensor).m00 = 0)
        ∧ (b.InertiaTensor.m11 ≤ 0 → (I0invDiag b.InertiaTensor).m11 = 0)
        ∧ (b.InertiaTensor.m22 ≤ 0 → (I0invDiag b.InertiaTensor).m22 = 0)) := by
  constructor
  · intro h
    unfold Momentum.refreshInertiaCaches
    rw [if_pos h]
  · intro h
    refine ⟨?_, ?_, ?_, ?_⟩
    · unfold Momentum.refreshInertiaCaches
      rw [if_neg (not_le.mpr h)]
      cases sync <;> rfl
    · intro h0
      simp [I0invDiag, M3.diag, guardedInv, not_lt.mpr h0]
    · intro h0
      simp [I0invDiag, M3.diag, guardedInv, not_lt.mpr h0]
    · intro h0
      simp [I0invDiag, M3.diag, guardedInv, not_lt.mpr h0]

/-- Witness for C8 at concrete inputs: the mass-0 floor takes the zero-matrix
branch, and a movable body with a zero inertia entry gets inverse entry 0. -/
theorem C8_witness :
    (staticFloorM.mass ≤ 0
      ∧ Momentum.refreshInertiaCaches true staticFloorM
          = { staticFloorM with InertiaTensor := M3.diag 0 0 0,
                                Iinv := M3.diag 0 0 0 })
    ∧ (0 < degenM.mass ∧ degenM.InertiaTensor.m00 ≤ 0
      ∧ (I0invDiag degenM.InertiaTensor).m00 = 0) := by
  have hm : staticFloorM.mass ≤ 0 := by
    norm_num [staticFloorM, Momentum.mkCubeRigidbody, Momentum.refresh_mass]
  have h1 : (0 : ℚ) < degenM.mass := by norm_num [degenM]
  have h0 : degenM.InertiaTensor.m00 ≤ 0 := by norm_num [degenM, M3.diag]
  exact ⟨⟨hm, (C8_refreshInertiaCaches_guarded staticFloorM true).1 hm⟩,
    ⟨h1, h0, ((C8_refreshInertiaCaches_guarded degenM true).2 h1).2.1 h0⟩⟩

/-- Computed form of the momentum-variant unit cube. -/
theorem unitCubeM_eval :
    unitCubeM =
      { position := ⟨0, 3, 0⟩
        rotation := ⟨0, 0, 0, 1⟩
        rotationMatrix := ⟨1, 0, 0, 0, 1, 0, 0, 0, 1⟩
        velocity := ⟨0, 0, 0⟩
        angularVelocity := ⟨0, 0, 0⟩
        previousVelocities := [⟨0, 0, 0⟩]
        previousAngularVelocities := [⟨0, 0, 0⟩]
        size := ⟨1, 1, 1⟩
        mass := 1
        linearMomentum := ⟨0, 0, 0⟩
        angularMomentum := ⟨0, 0, 0⟩
        InertiaTensor := ⟨1 / 6, 0, 0, 0, 1 / 6, 0, 0, 0, 1 / 6⟩
        Iinv := ⟨6, 0, 0, 0, 6, 0, 0, 0, 6⟩
        torqueAccum := ⟨0, 0, 0⟩
        friction := 1 / 2
        detectionRadius := 0
        forces := [] } := by
  norm_num [unitCubeM, Momentum.mkCubeRigidbody, Momentum.refreshInertiaCaches,
    I0invDiag, guardedInv, M3.fromQuat, M3.diag, M3.id', M3.mul, M3.transpose,
    M3.mulVec, Q4.id', V3.smul, V3.dot, sqrt0, V3.zero_def]
  all_goals simp [V3.zero_def]

/-- Computed form of the momentum-variant mass-0 floor. -/
theorem staticFloorM_eval :
    staticFloorM =
      { position := ⟨0, -(1 / 2 : ℚ), 0⟩
        rotation := ⟨0, 0, 0, 1⟩
        rotationMatrix := ⟨1, 0, 0, 0, 1, 0, 0, 0, 1⟩
        velocity := ⟨0, 0, 0⟩
        angularVelocity := ⟨0, 0, 0⟩
        previousVelocities := [⟨0, 0, 0⟩]
        previousAngularVelocities := [⟨0, 0, 0⟩]
        size := ⟨10, 1, 10⟩
        mass := 0
        linearMomentum := ⟨0, 0, 0⟩
        angularMomentum := ⟨0, 0, 0⟩
        InertiaTensor := ⟨0, 0, 0, 0, 0, 0, 0, 0, 0⟩
        Iinv := ⟨0, 0, 0, 0, 0, 0, 0, 0, 0⟩
        torqueAccum := ⟨0, 0, 0⟩
        friction := 4 / 5
        detectionRadius := 0
        forces := [] } := by
  norm_num [staticFloorM, Momentum.mkCubeRigidbody, Momentum.refreshInertiaCaches,
    M3.diag, M3.id', Q4.id', V3.smul, V3.dot, sqrt0, V3.zero_def]
  all_goals simp [V3.zero_def]

/-- Computed form of the AVBD-variant unit cube. -/
theorem unitCubeA_eval :
    unitCubeA =
      { position := ⟨0, 3, 0⟩
        rotation := ⟨0, 0, 0, 1⟩
        rotationMatrix := ⟨1, 0, 0, 0, 1, 0, 0, 0, 1⟩
        velocity := ⟨0, 0, 0⟩
        angularVelocity := ⟨0, 0, 0⟩
        previousVelocities := [⟨0, 0, 0⟩]
        previousAngularVelocities := [⟨0, 0, 0⟩]
        initialPosition := ⟨0, 3, 0⟩
        initialRotation := ⟨0, 0, 0, 1⟩
        inertialPosition := ⟨0, 3, 0⟩
        inertialRotation := ⟨0, 0, 0, 1⟩
        size := ⟨1, 1, 1⟩
        mass := 1
        InertiaTensor := ⟨1 / 6, 0, 0, 0, 1 / 6, 0, 0, 0, 1 / 6⟩
        Iinv := ⟨6, 0, 0, 0, 6, 0, 0, 0, 6⟩
        forceAccum := ⟨0, 0, 0⟩
        torqueAccum := ⟨0, 0, 0⟩
        friction := 1 / 2
        detectionRadius := 0
        forces := [] } := by
  norm_num [unitCubeA, AVBD.mkCubeRigidbody, AVBD.refreshInertiaCaches,
    I0invDiag, guardedInv, M3.fromQuat, M3.diag, M3.id', M3.mul, M3.transpose,
    Q4.id', sqrt0, V3.zero_def]
  all_goals simp [V3.zero_def]

/-- Computed form of the AVBD-variant mass-0 floor. -/
theorem staticFloorA_eval :
    staticFloorA =
      { position := ⟨0, -(1 / 2 : ℚ), 0⟩
        rotation := ⟨0, 0, 0, 1⟩
        rotationMatrix := ⟨1, 0, 0, 0, 1, 0, 0, 0, 1⟩
        velocity := ⟨0, 0, 0⟩
        angularVelocity := ⟨0, 0, 0⟩
        previousVelocities := [⟨0, 0, 0⟩]
        previousAngularVelocities := [⟨0, 0, 0⟩]
        initialPosition := ⟨0, -(1 / 2 : ℚ), 0⟩
        initialRotation := ⟨0, 0, 0, 1⟩
        inertialPosition := ⟨0, -(1 / 2 : ℚ), 0⟩
        inertialRotation := ⟨0, 0, 0, 1⟩
        size := ⟨10, 1, 10⟩
        mass := 0
        InertiaTensor := ⟨0, 0, 0, 0, 0, 0, 0, 0, 0⟩
        Iinv := ⟨0, 0, 0, 0, 0, 0, 0, 0, 0⟩
        forceAccum := ⟨0, 0, 0⟩
        torqueAccum := ⟨0, 0, 0⟩
        friction := 4 / 5
        detectionRadius := 0
        forces := [] } := by
  norm_num [staticFloorA, AVBD.mkCubeRigidbody, AVBD.refreshInertiaCaches,
    M3.diag, M3.id', Q4.id', sqrt0, V3.zero_def]
  all_goals simp [V3.zero_def]

/-- C6: an impulse applied at the body's center of mass has no angular
effect.  For the momentum variant (`CubeRigidbody.applyImpulse`), on a
movable body whose derived state is consistent (`v = p/m` and
`omega = Iinv * L`), the angular momentum and angular velocity are unchanged
and the velocity changes by exactly `J/m`; for the AVBD solver's
`applyImpulseAtPoint` the angular velocity is unchanged and the velocity
changes by exactly `J * (1/m)`. -/
theorem C6_central_impulse :
    (∀ (b : Momentum.CubeRigidbody ℚ) (J : V3 ℚ),
       0 < b.mass →
       b.velocity = b.linearMomentum.smul (1 / b.mass) →
       b.angularVelocity = b.Iinv.mulVec b.angularMomentum →
       (Momentum.applyImpulse b.position J b).angularMomentum = b.angularMomentum
       ∧ (Momentum.applyImpulse b.position J b).angularVelocity = b.angularVelocity
       ∧ (Momentum.applyImpulse b.position J b).velocity
           = b.velocity + J.smul (1 / b.mass))
    ∧ (∀ (b : AVBD.CubeRigidbody) (J : V3 ℚ),
       0 < b.mass →
       (AVBD.applyImpulseAtPoint b.position J b).angularVelocity = b.angularVelocity
       ∧ (AVBD.applyImpulseAtPoint b.position J b).velocity
           = b.velocity + J.smul (1 / b.mass)) := by
  constructor
  · intro b J hm hv hw
    unfold Momentum.applyImpulse
    rw [if_pos hm]
    dsimp only
    rw [V3.sub_self_vec, V3.cross_zero_left, V3.add_zero_vec]
    refine ⟨rfl, hw.symm, ?_⟩
    rw [V3.smul_add_dist, hv]
  · intro b J hm
    unfold AVBD.applyImpulseAtPoint
    dsimp only
    rw [AVBD.refreshA_position]
    dsimp only
    rw [V3.sub_self_vec, V3.cross_zero_left, M3.mulVec_zero_vec, V3.add_zero_vec]
    exact ⟨AVBD.refreshA_angularVelocity _, AVBD.refreshA_velocity _⟩

/-- Witness for C6: central impulse `(0,5,0)` on the unit cubes of both
variants. -/
theorem C6_witness :
    (0 < unitCubeM.mass
      ∧ unitCubeM.velocity = unitCubeM.linearMomentum.smul (1 / unitCubeM.mass)
      ∧ unitCubeM.angularVelocity = unitCubeM.Iinv.mulVec unitCubeM.angularMomentum
      ∧ (Momentum.applyImpulse unitCubeM.position ⟨0, 5, 0⟩ unitCubeM).angularMomentum
          = unitCubeM.angularMomentum
      ∧ (Momentum.applyImpulse unitCubeM.position ⟨0, 5, 0⟩ unitCubeM).velocity
          = unitCubeM.velocity + (V3.mk 0 5 0).smul (1 / unitCubeM.mass))
    ∧ (0 < unitCubeA.mass
      ∧ (AVBD.applyImpulseAtPoint unitCubeA.position ⟨0, 5, 0⟩ unitCubeA).velocity
          = unitCubeA.velocity + (V3.mk 0 5 0).smul (1 / unitCubeA.mass)) := by
  have hm : (0 : ℚ) < unitCubeM.mass := by rw [unitCubeM_eval]; norm_num
  have hv : unitCubeM.velocity = unitCubeM.linearMomentum.smul (1 / unitCubeM.mass) := by
    rw [unitCubeM_eval]; simp [V3.smul]
  have hw : unitCubeM.angularVelocity = unitCubeM.Iinv.mulVec unitCubeM.angularMomentum := by
    rw [unitCubeM_eval]; simp [M3.mulVec]
  have hma : (0 : ℚ) < unitCubeA.mass := by rw [unitCubeA_eval]; norm_num
  have hM := C6_central_impulse.1 unitCubeM ⟨0, 5, 0⟩ hm hv hw
  have hA := C6_central_impulse.2 unitCubeA ⟨0, 5, 0⟩ hma
  exact ⟨⟨hm, hv, hw, hM.1, hM.2.2⟩, ⟨hma, hA.2⟩⟩

theorem Momentum.integrate_mass (sq : ℚ → ℚ) (dt : ℚ) (b : Momentum.CubeRigidbody ℚ) :
    (Momentum.integrateOrientation sq dt b).mass = b.mass := by
  unfold Momentum.integrateOrientation
  split
  · rfl
  · exact Momentum.refresh_mass _ _

theorem Momentum.integrate_velocity (sq : ℚ → ℚ) (dt : ℚ) (b : Momentum.CubeRigidbody ℚ) :
    (Momentum.integrateOrientation sq dt b).velocity = b.velocity := by
  unfold Momentum.integrateOrientation
  split
  · rfl
  · exact Momentum.refresh_velocity _ _

theorem Momentum.integrate_linearMomentum (sq : ℚ → ℚ) (dt : ℚ)
    (b : Momentum.CubeRigidbody ℚ) :
    (Momentum.integrateOrientation sq dt b).linearMomentum = b.linearMomentum := by
  unfold Momentum.integrateOrientation
  split
  · rfl
  · exact Momentum.refresh_linearMomentum _ _

theorem Momentum.integrate_position (sq : ℚ → ℚ) (dt : ℚ) (b : Momentum.CubeRigidbody ℚ) :
    (Momentum.integrateOrientation sq dt b).position = b.position := by
  unfold Momentum.integrateOrientation
  split
  · rfl
  · exact Momentum.refresh_position _ _

theorem Momentum.applyMOp_mass (b : Momentum.CubeRigidbody ℚ) (op : Momentum.MOp ℚ) :
    (Momentum.applyMOp b op).mass = b.mass := by
  cases op with
  | applyImpulse p J =>
    simp only [Momentum.applyMOp, Momentum.applyImpulse]
    split <;> rfl
  | addTorque τ => rfl
  | clearAccumulators => rfl
  | addForceAtPoint f p => rfl
  | setRotation q sync => exact Momentum.refresh_mass _ _
  | integrateOrientation sq dt => exact Momentum.integrate_mass _ _ _
  | refreshCaches sync => exact Momentum.refresh_mass _ _
  | specStep sq g dt =>
    simp only [Momentum.applyMOp, Momentum.specStep]
    split
    · rw [show ∀ x : Momentum.CubeRigidbody ℚ,
            (Momentum.clearAccumulators x).mass = x.mass from fun _ => rfl,
          Momentum.integrate_mass]
      split <;> rfl
    · rfl

theorem Momentum.applyMOp_consistent (b : Momentum.CubeRigidbody ℚ)
    (op : Momentum.MOp ℚ) (hm : 0 < b.mass) (h : Momentum.linVelConsistent b) :
    Momentum.linVelConsistent (Momentum.applyMOp b op) := by
  cases op with
  | applyImpulse p J =>
    simp only [Momentum.applyMOp, Momentum.applyImpulse]
    rw [if_pos hm]
    exact rfl
  | addTorque τ => exact h
  | clearAccumulators => exact h
  | addForceAtPoint f p => exact h
  | setRotation q sync =>
    unfold Momentum.linVelConsistent at h ⊢
    simp only [Momentum.applyMOp, Momentum.setRotation]
    rw [Momentum.refresh_velocity, Momentum.refresh_linearMomentum, Momentum.refresh_mass]
    exact h
  | integrateOrientation sq dt =>
    unfold Momentum.linVelConsistent at h ⊢
    simp only [Momentum.applyMOp]
    rw [Momentum.integrate_velocity, Momentum.integrate_linearMomentum,
        Momentum.integrate_mass]
    exact h
  | refreshCaches sync =>
    unfold Momentum.linVelConsistent at h ⊢
    simp only [Momentum.applyMOp, Momentum.applyMOp.refreshCaches]
    rw [Momentum.refresh_velocity, Momentum.refresh_linearMomentum, Momentum.refresh_mass]
    exact h
  | specStep sq g dt =>
    unfold Momentum.linVelConsistent at h ⊢
    simp only [Momentum.applyMOp, Momentum.specStep]
    rw [if_pos hm]
    rw [show ∀ x : Momentum.CubeRigidbody ℚ,
          (Momentum.clearAccumulators x).velocity = x.velocity from fun _ => rfl,
        show ∀ x : Momentum.CubeRigidbody ℚ,
          (Momentum.clearAccumulators x).linearMomentum = x.linearMomentum from
          fun _ => rfl,
        show ∀ x : Momentum.CubeRigidbody ℚ,
          (Momentum.clearAccumulators x).mass = x.mass from fun _ => rfl,
        Momentum.integrate_velocity, Momentum.integrate_linearMomentum,
        Momentum.integrate_mass]
    split <;> rfl

/-- C7: momentum/velocity consistency.  A movable body is constructed with
`velocity = linearMomentum / mass` exactly, and every mutating operation of
the momentum variant (impulse, torque accumulation and clearing, force at a
point, rotation assignment, orientation integration, cache refresh, and the
spec-modelled momentum step) preserves that exact relation, so it holds at
every point after construction. -/
theorem C7_velocity_momentum_consistency :
    (∀ (sq : ℚ → ℚ) (size : V3 ℚ) (density friction : ℚ)
       (p v av : V3 ℚ) (q : Q4 ℚ),
       0 < density * (size.x * size.y * size.z) →
       Momentum.linVelConsistent
         (Momentum.mkCubeRigidbody sq size density friction p v av q))
    ∧ (∀ (b : Momentum.CubeRigidbody ℚ) (ops : List (Momentum.MOp ℚ)),
       0 < b.mass → Momentum.linVelConsistent b →
       Momentum.linVelConsistent (List.foldl Momentum.applyMOp b ops)) := by
  constructor
  · intro sq size density friction p v av q hm
    have hne : density * (size.x * size.y * size.z) ≠ 0 := ne_of_gt hm
    unfold Momentum.linVelConsistent Momentum.mkCubeRigidbody
    dsimp only
    rw [Momentum.refresh_velocity, Momentum.refresh_mass]
    dsimp only
    have key : ∀ u : V3 ℚ,
        (u.smul (density * (size.x * size.y * size.z))).smul
          (1 / (density * (size.x * size.y * size.z))) = u := by
      intro u
      ext <;> simp only [V3.smul_x, V3.smul_y, V3.smul_z] <;>
        rw [mul_assoc, mul_one_div, div_self hne, mul_one]
    exact (key v).symm
  · intro b ops
    induction ops generalizing b with
    | nil => intro _ h; exact h
    | cons op rest ih =>
      intro hm h
      have hm' : 0 < (Momentum.applyMOp b op).mass := by
        rw [Momentum.applyMOp_mass]; exact hm
      exact ih _ hm' (Momentum.applyMOp_consistent b op hm h)

/-- Witness for C7: the unit cube construction is consistent, and stays
consistent through an impulse, a torque, and a spec-modelled step. -/
theorem C7_witness :
    (0 < (1 : ℚ) * ((1 : ℚ) * 1 * 1)
      ∧ Momentum.linVelConsistent
          (Momentum.mkCubeRigidbody sqrt0 ⟨1, 1, 1⟩ 1 (1 / 2) ⟨0, 3, 0⟩ 0 0 Q4.id'))
    ∧ (0 < unitCubeM.mass ∧ Momentum.linVelConsistent unitCubeM
      ∧ Momentum.linVelConsistent
          (List.foldl Momentum.applyMOp unitCubeM
            [Momentum.MOp.applyImpulse ⟨1, 0, 0⟩ ⟨0, 5, 0⟩,
             Momentum.MOp.addTorque ⟨1, 2, 3⟩,
             Momentum.MOp.specStep sqrt0 gDefault (1 / 60)])) := by
  have h1 : (0 : ℚ) < 1 * (1 * 1 * 1) := by norm_num
  have hm : (0 : ℚ) < unitCubeM.mass := by rw [unitCubeM_eval]; norm_num
  have hc : Momentum.linVelConsistent unitCubeM := by
    unfold Momentum.linVelConsistent
    rw [unitCubeM_eval]; simp [V3.smul]
  refine ⟨⟨h1, C7_velocity_momentum_consistency.1 sqrt0 ⟨1, 1, 1⟩ 1 (1 / 2)
      ⟨0, 3, 0⟩ 0 0 Q4.id' (by norm_num)⟩,
    ⟨hm, hc, C7_velocity_momentum_consistency.2 unitCubeM _ hm hc⟩⟩

/-- C3 counterexample: on the mass-0 floor, `addTorque` is not a no-op — it
still accumulates torque into the body state (the claim asserts every
mutating operation, `addTorque` included, is a no-op for `mass <= 0`). -/
theorem C3_counterexample :
    staticFloorM.mass ≤ 0
    ∧ Momentum.addTorque ⟨1, 0, 0⟩ staticFloorM ≠ staticFloorM := by
  constructor
  · rw [staticFloorM_eval]
  · rw [staticFloorM_eval]
    intro hEq
    have h := congrArg Momentum.CubeRigidbody.torqueAccum hEq
    simp only [Momentum.addTorque] at h
    have hx := congrArg V3.x h
    simp at hx

theorem MStaticOp_preserves_pose (b : Momentum.CubeRigidbody ℚ)
    (hm : b.mass ≤ 0) (op : MStaticOp ℚ) :
    (applyMStaticOp b op).position = b.position
    ∧ (applyMStaticOp b op).rotation = b.rotation
    ∧ (applyMStaticOp b op).mass = b.mass := by
  have h' : ¬ 0 < b.mass := not_lt.mpr hm
  cases op with
  | impulse p J =>
    simp only [applyMStaticOp, Momentum.applyImpulse]
    rw [if_neg h']
    exact ⟨rfl, rfl, rfl⟩
  | torque τ => exact ⟨rfl, rfl, rfl⟩
  | sstep sq g dt =>
    simp only [applyMStaticOp, Momentum.specStep]
    rw [if_neg h']
    exact ⟨rfl, rfl, rfl⟩

theorem AOp_preserves_pose (b : AVBD.CubeRigidbody)
    (hm : b.mass ≤ 0) (op : AVBD.AOp) :
    (AVBD.applyAOp b op).position = b.position
    ∧ (AVBD.applyAOp b op).rotation = b.rotation
    ∧ (AVBD.applyAOp b op).mass = b.mass := by
  have h' : ¬ 0 < b.mass := not_lt.mpr hm
  cases op with
  | astep ops g dt =>
    simp [AVBD.applyAOp, AVBD.stepBody, AVBD.pass1, AVBD.pass2, AVBD.pass3,
      AVBD.clearAccumulators, h']
  | impulseAt p J =>
    refine ⟨?_, ?_, ?_⟩ <;>
      simp [AVBD.applyAOp, AVBD.applyImpulseAtPoint,
        AVBD.refreshA_position, AVBD.refreshA_rotation, AVBD.refreshA_mass]
  | atorque τ => exact ⟨rfl, rfl, rfl⟩

/-- C3 (amended): for a body with `mass <= 0`, `CubeRigidbody.applyImpulse`
is a complete no-op, and any sequence of solver steps, impulses
(`applyImpulse` / `applyImpulseAtPoint`, in particular central impulses as
issued by `applyImpulseAtCenterALL`), and `addTorque` calls leaves the
body's `position` and `rotation` exactly unchanged — but such calls are not
in general no-ops on the whole state (`addTorque` accumulates torque, the
AVBD step pushes history and clears accumulators, `applyImpulseAtPoint`
rewrites caches). -/
theorem C3_static_pose_preserved :
    (∀ b : Momentum.CubeRigidbody ℚ, b.mass ≤ 0 →
       (∀ p J : V3 ℚ, Momentum.applyImpulse p J b = b)
       ∧ ∀ ops : List (MStaticOp ℚ),
           (List.foldl applyMStaticOp b ops).position = b.position
           ∧ (List.foldl applyMStaticOp b ops).rotation = b.rotation)
    ∧ (∀ b : AVBD.CubeRigidbody, b.mass ≤ 0 →
       ∀ ops : List AVBD.AOp,
         (List.foldl AVBD.applyAOp b ops).position = b.position
         ∧ (List.foldl AVBD.applyAOp b ops).rotation = b.rotation) := by
  constructor
  · intro b hm
    constructor
    · intro p J
      unfold Momentum.applyImpulse
      rw [if_neg (not_lt.mpr hm)]
    · intro ops
      induction ops generalizing b with
      | nil => exact ⟨rfl, rfl⟩
      | cons op rest ih =>
        have h := MStaticOp_preserves_pose b hm op
        have hm' : (applyMStaticOp b op).mass ≤ 0 := by rw [h.2.2]; exact hm
        have hr := ih (applyMStaticOp b op) hm'
        exact ⟨hr.1.trans h.1, hr.2.trans h.2.1⟩
  · intro b hm ops
    induction ops generalizing b with
    | nil => exact ⟨rfl, rfl⟩
    | cons op rest ih =>
      have h := AOp_preserves_pose b hm op
      have hm' : (AVBD.applyAOp b op).mass ≤ 0 := by rw [h.2.2]; exact hm
      have hr := ih (AVBD.applyAOp b op) hm'
      exact ⟨hr.1.trans h.1, hr.2.trans h.2.1⟩

/-- Witness for C3 at the mass-0 floors of both variants, through a
torque, a solver step, and an off-center impulse. -/
theorem C3_witness :
    (staticFloorM.mass ≤ 0
      ∧ Momentum.applyImpulse ⟨1, 2, 3⟩ ⟨4, 5, 6⟩ staticFloorM = staticFloorM
      ∧ (List.foldl applyMStaticOp staticFloorM
           [MStaticOp.torque ⟨1, 0, 0⟩, MStaticOp.sstep sqrt0 gDefault (1 / 60),
            MStaticOp.impulse ⟨1, 2, 3⟩ ⟨4, 5, 6⟩]).position
          = staticFloorM.position)
    ∧ (staticFloorA.mass ≤ 0
      ∧ (List.foldl AVBD.applyAOp staticFloorA
           [AVBD.AOp.atorque ⟨1, 0, 0⟩, AVBD.AOp.astep AVBD.qops0 gDefault (1 / 60),
            AVBD.AOp.impulseAt ⟨1, 2, 3⟩ ⟨4, 5, 6⟩]).rotation
          = staticFloorA.rotation) := by
  have hM : staticFloorM.mass ≤ 0 := by rw [staticFloorM_eval]
  have hA : staticFloorA.mass ≤ 0 := by rw [staticFloorA_eval]
  exact ⟨⟨hM, (C3_static_pose_preserved.1 staticFloorM hM).1 ⟨1, 2, 3⟩ ⟨4, 5, 6⟩,
      ((C3_static_pose_preserved.1 staticFloorM hM).2 _).1⟩,
    ⟨hA, (C3_static_pose_preserved.2 staticFloorA hA _).2⟩⟩

theorem Q4.normSq_scale {α : Type} [Field α] (q : Q4 α) (s : α) :
    (q.scale s).normSq = s * s * q.normSq := by
  unfold Q4.scale Q4.normSq
  dsimp only
  ring

theorem normSq_integrateRawQuat {α : Type} [Field α] (q : Q4 α) (ω : V3 α) (dt : α) :
    (integrateRawQuat q ω dt).normSq = (1 + (dt / 2) ^ 2 * ω.sqLen) * q.normSq := by
  unfold integrateRawQuat Q4.normSq V3.sqLen
  dsimp only
  ring

theorem normSq_glNormalize_real (q : Q4 ℝ) (h : 0 < q.normSq) :
    (glNormalize Real.sqrt q).normSq = 1 := by
  unfold glNormalize
  dsimp only
  rw [if_pos h, Q4.normSq_scale, div_mul_div_comm, one_mul,
      Real.mul_self_sqrt h.le, one_div, inv_mul_cancel₀ (ne_of_gt h)]

theorem integrateOrientation_unit_real (dt : ℝ) (b : Momentum.CubeRigidbody ℝ)
    (h : b.rotation.normSq = 1) :
    (Momentum.integrateOrientation Real.sqrt dt b).rotation.normSq = 1 := by
  unfold Momentum.integrateOrientation
  split
  · exact h
  · dsimp only
    rw [Momentum.refresh_rotation]
    apply normSq_glNormalize_real
    rw [normSq_integrateRawQuat, h, mul_one]
    have h1 : (0 : ℝ) ≤ (dt / 2) ^ 2 * b.angularVelocity.sqLen := by
      apply mul_nonneg (sq_nonneg _)
      unfold V3.sqLen
      have h1 := mul_self_nonneg b.angularVelocity.x
      have h2 := mul_self_nonneg b.angularVelocity.y
      have h3 := mul_self_nonneg b.angularVelocity.z
      linarith
    linarith

theorem integrateSeq_cons_eq (sq : ℝ → ℝ) (b : Momentum.CubeRigidbody ℝ)
    (p : V3 ℝ × ℝ) (rest : List (V3 ℝ × ℝ)) :
    Momentum.integrateSeq sq b (p :: rest)
      = Momentum.integrateSeq sq
          (Momentum.integrateOrientation sq p.2 { b with angularVelocity := p.1 })
          rest := rfl

/-- C5: the unit-quaternion invariant.  If a body's orientation has unit
norm, then after any sequence of `integrateOrientation` calls — each with an
arbitrary angular velocity installed beforehand and an arbitrary step size
(in particular any `dt > 0`) — the orientation still has norm exactly 1 in
the exact-arithmetic model: the pre-normalisation quaternion always has
norm-squared `(1 + (dt/2)^2 |omega|^2) >= 1 > 0`, so `quat.normalize`
really divides and restores the invariant; since every prefix of calls is
itself such a sequence, the invariant holds after every call. -/
theorem C5_unit_quaternion_invariant (b : Momentum.CubeRigidbody ℝ)
    (l : List (V3 ℝ × ℝ)) (h : b.rotation.normSq = 1) :
    (Momentum.integrateSeq Real.sqrt b l).rotation.normSq = 1 := by
  induction l generalizing b with
  | nil => exact h
  | cons p rest ih =>
    rw [integrateSeq_cons_eq]
    exact ih _ (integrateOrientation_unit_real p.2 _ h)

/-- Witness for C5: a unit-orientation body stepped with a non-zero and
then a zero angular velocity. -/
theorem C5_witness :
    Q4.normSq (Q4.mk (0 : ℝ) 0 0 1) = 1
    ∧ (Momentum.integrateSeq Real.sqrt
        { position := 0
          rotation := ⟨0, 0, 0, 1⟩
          rotationMatrix := M3.id'
          velocity := 0
          angularVelocity := 0
          previousVelocities := []
          previousAngularVelocities := []
          size := ⟨1, 1, 1⟩
          mass := 1
          linearMomentum := 0
          angularMomentum := 0
          InertiaTensor := M3.id'
          Iinv := M3.id'
          torqueAccum := 0
          friction := 0
          detectionRadius := 0
          forces := [] }
        [(⟨1, 2, 3⟩, 1), (⟨0, 0, 0⟩, 1 / 2)]).rotation.normSq = 1 := by
  have h : Q4.normSq (Q4.mk (0 : ℝ) 0 0 1) = 1 := by norm_num [Q4.normSq]
  exact ⟨h, C5_unit_quaternion_invariant _ _ h⟩

theorem AVBD.refreshA_initialPosition (b : AVBD.CubeRigidbody) :
    (AVBD.refreshInertiaCaches b).initialPosition = b.initialPosition := by
  unfold AVBD.refreshInertiaCaches
  split <;> rfl

theorem AVBD.refreshA_initialRotation (b : AVBD.CubeRigidbody) :
    (AVBD.refreshInertiaCaches b).initialRotation = b.initialRotation := by
  unfold AVBD.refreshInertiaCaches
  split <;> rfl

theorem AVBD.refreshA_inertialPosition (b : AVBD.CubeRigidbody) :
    (AVBD.refreshInertiaCaches b).inertialPosition = b.inertialPosition := by
  unfold AVBD.refreshInertiaCaches
  split <;> rfl

theorem AVBD.refreshA_inertialRotation (b : AVBD.CubeRigidbody) :
    (AVBD.refreshInertiaCaches b).inertialRotation = b.inertialRotation := by
  unfold AVBD.refreshInertiaCaches
  split <;> rfl

theorem AVBD.refreshA_forceAccum (b : AVBD.CubeRigidbody) :
    (AVBD.refreshInertiaCaches b).forceAccum = b.forceAccum := by
  unfold AVBD.refreshInertiaCaches
  split <;> rfl

theorem AVBD.pass1_spec (ops : AVBD.QOps) (g : V3 ℚ) (dt : ℚ)
    (b : AVBD.CubeRigidbody) (hm : 0 < b.mass) :
    (AVBD.pass1 ops g dt b).initialPosition = b.position
    ∧ (AVBD.pass1 ops g dt b).inertialPosition
        = b.position + b.velocity.smul dt
          + (g + b.forceAccum.smul (1 / b.mass)).smul (dt * dt)
    ∧ (AVBD.pass1 ops g dt b).velocity = b.velocity
    ∧ (AVBD.pass1 ops g dt b).mass = b.mass := by
  unfold AVBD.pass1
  rw [if_pos hm]
  dsimp only
  refine ⟨?_, ?_, ?_, ?_⟩ <;>
    simp [AVBD.refreshA_initialPosition, AVBD.refreshA_inertialPosition,
      AVBD.refreshA_velocity, AVBD.refreshA_mass]

theorem AVBD.pass2_spec (b : AVBD.CubeRigidbody) (hm : 0 < b.mass) :
    (AVBD.pass2 b).position = b.inertialPosition
    ∧ (AVBD.pass2 b).initialPosition = b.initialPosition
    ∧ (AVBD.pass2 b).mass = b.mass := by
  unfold AVBD.pass2
  rw [if_pos hm]
  exact ⟨rfl, rfl, rfl⟩

theorem AVBD.pass3_spec (ops : AVBD.QOps) (dt : ℚ)
    (b : AVBD.CubeRigidbody) (hm : 0 < b.mass) :
    (AVBD.pass3 ops dt b).velocity
        = (b.position - b.initialPosition).smul (1 / dt)
    ∧ (AVBD.pass3 ops dt b).position = b.position := by
  unfold AVBD.pass3 AVBD.clearAccumulators
  dsimp only
  rw [if_pos hm]
  exact ⟨rfl, rfl⟩

theorem AVBD.stepBody_movable_linear (ops : AVBD.QOps) (g : V3 ℚ) (dt : ℚ)
    (b : AVBD.CubeRigidbody) (hdt : dt ≠ 0) (hm : 0 < b.mass)
    (hf : b.forceAccum = 0) :
    (AVBD.stepBody ops g dt b).velocity = b.velocity + g.smul dt
    ∧ (AVBD.stepBody ops g dt b).position
        = b.position + (b.velocity + g.smul dt).smul dt := by
  obtain ⟨h1i, h1p, h1v, h1m⟩ := AVBD.pass1_spec ops g dt b hm
  have hm1 : 0 < (AVBD.pass1 ops g dt b).mass := by rw [h1m]; exact hm
  obtain ⟨h2p, h2i, h2m⟩ := AVBD.pass2_spec _ hm1
  have hm2 : 0 < (AVBD.pass2 (AVBD.pass1 ops g dt b)).mass := by rw [h2m]; exact hm1
  obtain ⟨h3v, h3p⟩ := AVBD.pass3_spec ops dt _ hm2
  have hx : (AVBD.pass2 (AVBD.pass1 ops g dt b)).position
      = b.position + b.velocity.smul dt + g.smul (dt * dt) := by
    rw [h2p, h1p, hf, V3.smul_zero_vec, V3.add_zero_vec]
  have hxi : (AVBD.pass2 (AVBD.pass1 ops g dt b)).initialPosition = b.position := by
    rw [h2i, h1i]
  constructor
  · show (AVBD.pass3 ops dt (AVBD.pass2 (AVBD.pass1 ops g dt b))).velocity = _
    rw [h3v, hx, hxi]
    ext <;> simp [V3.smul] <;> field_simp <;> ring
  · show (AVBD.pass3 ops dt (AVBD.pass2 (AVBD.pass1 ops g dt b))).position = _
    rw [h3p, hx]
    ext <;> simp [V3.smul] <;> ring

/-- Computed form of the forced unit cube. -/
theorem forcedCubeA_eval :
    forcedCubeA =
      { position := ⟨0, 3, 0⟩
        rotation := ⟨0, 0, 0, 1⟩
        rotationMatrix := ⟨1, 0, 0, 0, 1, 0, 0, 0, 1⟩
        velocity := ⟨0, 0, 0⟩
        angularVelocity := ⟨0, 0, 0⟩
        previousVelocities := [⟨0, 0, 0⟩]
        previousAngularVelocities := [⟨0, 0, 0⟩]
        initialPosition := ⟨0, 3, 0⟩
        initialRotation := ⟨0, 0, 0, 1⟩
        inertialPosition := ⟨0, 3, 0⟩
        inertialRotation := ⟨0, 0, 0, 1⟩
        size := ⟨1, 1, 1⟩
        mass := 1
        InertiaTensor := ⟨1 / 6, 0, 0, 0, 1 / 6, 0, 0, 0, 1 / 6⟩
        Iinv := ⟨6, 0, 0, 0, 6, 0, 0, 0, 6⟩
        forceAccum := ⟨600, 0, 0⟩
        torqueAccum := ⟨0, 0, 0⟩
        friction := 1 / 2
        detectionRadius := 0
        forces := [] } := by
  show AVBD.addForce ⟨600, 0, 0⟩ unitCubeA = _
  rw [unitCubeA_eval]
  simp [AVBD.addForce, V3.add_mk]

/-- C1 counterexample: a movable body with a pending accumulated force (a
state reachable through the public `addForce` call) is advanced by
`Solver.step` with the extra `F/m * dt` term, not by the gravity-only
momentum update the claim states for every non-static body. -/
theorem C1_counterexample :
    0 < forcedCubeA.mass
    ∧ (AVBD.stepBodies AVBD.qops0 gDefault (1 / 60) [forcedCubeA]).map
        AVBD.CubeRigidbody.velocity
        ≠ [forcedCubeA.velocity + gDefault.smul (1 / 60)] := by
  constructor
  · rw [forcedCubeA_eval]
    norm_num
  · rw [forcedCubeA_eval]
    intro hEq
    have h := congrArg (fun l => (l.headD 0).x) hEq
    norm_num [AVBD.stepBodies, AVBD.stepBody, AVBD.pass1, AVBD.pass2, AVBD.pass3,
      AVBD.refreshInertiaCaches, AVBD.clearAccumulators, AVBD.capHistory,
      AVBD.qops0, I0invDiag, guardedInv, M3.fromQuat, M3.diag, M3.mul,
      M3.transpose, M3.mulVec, V3.smul, V3.dot, V3.sqLen, gDefault,
      V3.zero_def] at h

/-- C1 (amended): `Solver.step` applies the three per-body loops
independently to every body, and for every non-static body with an empty
force accumulator and `dt` non-zero it advances the linear state exactly as
the momentum update `v subst = v + g*dt; x subst = x + v*dt` does: the new
velocity is `v + g*dt` and the new position is `x + (v + g*dt)*dt`.  In
particular the unit cube of density 1 at rest under gravity `(0,-9.81,0)`
with `fixedDt = 1/60` ends one step with velocity `(0, -0.1635, 0)` and its
`y` position lowered by `9.81/3600`.  (With a non-empty force accumulator
the step instead uses `g + F/m`, which is the counterexample to the claim
as stated.) -/
theorem C1_step_linear_momentum_update :
    (∀ (ops : AVBD.QOps) (g : V3 ℚ) (dt : ℚ) (bodies : List AVBD.CubeRigidbody),
        AVBD.stepBodies ops g dt bodies = bodies.map (AVBD.stepBody ops g dt))
    ∧ (∀ (ops : AVBD.QOps) (g : V3 ℚ) (dt : ℚ) (b : AVBD.CubeRigidbody),
        dt ≠ 0 → 0 < b.mass → b.forceAccum = 0 →
        (AVBD.stepBody ops g dt b).velocity = b.velocity + g.smul dt
        ∧ (AVBD.stepBody ops g dt b).position
            = b.position + (b.velocity + g.smul dt).smul dt)
    ∧ ((AVBD.stepBodies AVBD.qops0 gDefault (1 / 60) [unitCubeA]).map
          AVBD.CubeRigidbody.velocity = [⟨0, -(981 / 6000 : ℚ), 0⟩]
      ∧ (AVBD.stepBodies AVBD.qops0 gDefault (1 / 60) [unitCubeA]).map
          AVBD.CubeRigidbody.position = [⟨0, 3 - (981 / 360000 : ℚ), 0⟩]) := by
  have hmap : ∀ (ops : AVBD.QOps) (g : V3 ℚ) (dt : ℚ)
      (bodies : List AVBD.CubeRigidbody),
      AVBD.stepBodies ops g dt bodies = bodies.map (AVBD.stepBody ops g dt) := by
    intro ops g dt bodies
    simp only [AVBD.stepBodies, List.map_map]
    rfl
  have hmU : 0 < unitCubeA.mass := by rw [unitCubeA_eval]; norm_num
  have hfU : unitCubeA.forceAccum = 0 := by rw [unitCubeA_eval]; simp [V3.zero_def]
  have hU := AVBD.stepBody_movable_linear AVBD.qops0 gDefault (1 / 60) unitCubeA
    (by norm_num) hmU hfU
  refine ⟨hmap, fun ops g dt b hdt hm hf =>
    AVBD.stepBody_movable_linear ops g dt b hdt hm hf, ?_, ?_⟩
  · rw [hmap, List.map_cons, List.map_cons, List.map_nil, hU.1, unitCubeA_eval]
    norm_num [V3.smul, gDefault, V3.zero_def, V3.add_mk]
  · rw [hmap, List.map_cons, List.map_cons, List.map_nil, hU.2, unitCubeA_eval]
    norm_num [V3.smul, gDefault, V3.zero_def, V3.add_mk]

/-- Witness for C1 at the unit cube: the hypotheses of the amended claim
hold and its velocity conclusion follows. -/
theorem C1_witness :
    ((1 : ℚ) / 60 ≠ 0 ∧ 0 < unitCubeA.mass ∧ unitCubeA.forceAccum = 0)
    ∧ (AVBD.stepBody AVBD.qops0 gDefault (1 / 60) unitCubeA).velocity
        = unitCubeA.velocity + gDefault.smul (1 / 60) := by
  have hdt : (1 : ℚ) / 60 ≠ 0 := by norm_num
  have hm : 0 < unitCubeA.mass := by rw [unitCubeA_eval]; norm_num
  have hf : unitCubeA.forceAccum = 0 := by rw [unitCubeA_eval]; simp [V3.zero_def]
  exact ⟨⟨hdt, hm, hf⟩,
    (C1_step_linear_momentum_update.2.1 AVBD.qops0 gDefault (1 / 60) unitCubeA
      hdt hm hf).1⟩

theorem AVBD.substeps_spec (ops : AVBD.QOps) (g : V3 ℚ) (fd : ℚ) :
    ∀ (r : Nat) (acc : ℚ) (bs : List AVBD.CubeRigidbody),
      (AVBD.substeps ops g fd r acc bs).2.2 ≤ r
      ∧ (AVBD.substeps ops g fd r acc bs).1
          = acc - (AVBD.substeps ops g fd r acc bs).2.2 * fd
      ∧ (0 ≤ acc → 0 < fd → 0 ≤ (AVBD.substeps ops g fd r acc bs).1)
      ∧ ((AVBD.substeps ops g fd r acc bs).2.2 < r →
          (AVBD.substeps ops g fd r acc bs).1 < fd) := by
  intro r
  induction r with
  | zero =>
    intro acc bs
    exact ⟨le_refl _, by simp [AVBD.substeps], fun h _ => by simpa [AVBD.substeps] using h,
      fun h => absurd h (by simp)⟩
  | succ n ih =>
    intro acc bs
    unfold AVBD.substeps
    split
    case isTrue hge =>
      obtain ⟨ih1, ih2, ih3, ih4⟩ := ih (acc - fd) (AVBD.stepBodies ops g fd bs)
      dsimp only
      refine ⟨Nat.succ_le_succ ih1, ?_, ?_, ?_⟩
      · rw [ih2]; push_cast; ring
      · intro ha hf
        exact ih3 (by linarith) hf
      · intro hlt
        exact ih4 (Nat.lt_of_succ_lt_succ hlt)
    case isFalse hlt =>
      refine ⟨Nat.zero_le _, by simp, fun ha _ => ha, fun _ => not_le.mp hlt⟩

theorem steps_before_draws (k m i j : Nat)
    (hi : i < (List.replicate k AVBD.Ev.step ++ List.replicate m AVBD.Ev.draw).length)
    (hj : j < (List.replicate k AVBD.Ev.step ++ List.replicate m AVBD.Ev.draw).length)
    (hsi : (List.replicate k AVBD.Ev.step ++ List.replicate m AVBD.Ev.draw)[i]
      = AVBD.Ev.step)
    (hdj : (List.replicate k AVBD.Ev.step ++ List.replicate m AVBD.Ev.draw)[j]
      = AVBD.Ev.draw) :
    i < j := by
  have hik : i < k := by
    by_contra hc
    push_neg at hc
    rw [List.getElem_append_right (by simpa using hc)] at hsi
    simp at hsi
  have hjk : k ≤ j := by
    by_contra hc
    push_neg at hc
    rw [List.getElem_append_left (by simpa using hc)] at hdj
    simp at hdj
  exact lt_of_lt_of_le hik hjk

/-- C2: for any real frame delta and any `maxSubsteps = N >= 1`, one
`Solver.update` call executes at most `N` physics steps (in the fixed-step
branch the while loop is bounded by `N`; in the null-`fixedDt` branch
exactly one variable step runs), and in the call's event trace every
executed step strictly precedes every per-body draw callback. -/
theorem C2_update_substep_bound_and_order
    (ops : AVBD.QOps) (realDt : ℚ) (s : AVBD.Solver)
    (hN : 1 ≤ s.maxSubsteps) :
    (AVBD.update ops realDt s).2.2.count AVBD.Ev.step ≤ s.maxSubsteps
    ∧ ∀ (i j : Nat) (hi : i < (AVBD.update ops realDt s).2.2.length)
        (hj : j < (AVBD.update ops realDt s).2.2.length),
        (AVBD.update ops realDt s).2.2[i] = AVBD.Ev.step →
        (AVBD.update ops realDt s).2.2[j] = AVBD.Ev.draw → i < j := by
  unfold AVBD.update
  cases hfd : s.fixedDt with
  | some fd =>
    dsimp only
    constructor
    · rw [List.count_append]
      have h0 : (List.replicate
          (AVBD.substeps ops s.gravity fd s.maxSubsteps (s.accum + realDt)
            s.rigidbodies).2.1.length AVBD.Ev.draw).count AVBD.Ev.step = 0 := by
        simp [List.count_replicate]
      rw [h0, Nat.add_zero, List.count_replicate]
      simp only [beq_self_eq_true, if_true]
      exact (AVBD.substeps_spec ops s.gravity fd s.maxSubsteps
        (s.accum + realDt) s.rigidbodies).1
    · intro i j hi hj hsi hdj
      exact steps_before_draws _ _ i j hi hj hsi hdj
  | none =>
    dsimp only
    constructor
    · have : (AVBD.Ev.step :: List.replicate
          (AVBD.stepBodies ops s.gravity realDt s.rigidbodies).length
            AVBD.Ev.draw).count AVBD.Ev.step = 1 := by
        simp [List.count_replicate]
      rw [this]
      exact hN
    · intro i j hi hj hsi hdj
      exact steps_before_draws 1 _ i j (by simpa using hi) (by simpa using hj) hsi hdj

/-- Witness for C2: a fresh solver (cap 2) updated with one second of real
time. -/
theorem C2_witness :
    1 ≤ solver0.maxSubsteps
    ∧ (AVBD.update AVBD.qops0 1 solver0).2.2.count AVBD.Ev.step
        ≤ solver0.maxSubsteps := by
  have hN : 1 ≤ solver0.maxSubsteps := by norm_num [solver0, AVBD.mkSolver]
  exact ⟨hN, (C2_update_substep_bound_and_order AVBD.qops0 1 solver0 hN).1⟩

/-- C4: the accumulator is threaded through `update` (it persists across
calls as solver state).  For any update in the fixed-step branch with
`fd > 0`, starting from a non-negative accumulator and a non-negative frame
delta: the new accumulator equals the old one plus the frame delta minus
`k * fd` for the `k` executed steps (no clamping), it stays non-negative,
and whenever the call was not substep-starved (`k < maxSubsteps`) it ends
below `fd`.  Concretely, `update` with 1 s of real time on a fresh solver
(`fd = 1/60`, cap 2) runs exactly 2 steps and leaves `1 - 2/60`. -/
theorem C4_accumulator_invariant :
    (∀ (ops : AVBD.QOps) (realDt fd : ℚ) (s : AVBD.Solver),
        s.fixedDt = some fd → 0 < fd → 0 ≤ s.accum → 0 ≤ realDt →
        (AVBD.update ops realDt s).1.accum
            = s.accum + realDt - (AVBD.update ops realDt s).2.1 * fd
        ∧ 0 ≤ (AVBD.update ops realDt s).1.accum
        ∧ ((AVBD.update ops realDt s).2.1 < s.maxSubsteps →
            (AVBD.update ops realDt s).1.accum < fd))
    ∧ ((AVBD.update AVBD.qops0 1 solver0).2.1 = 2
      ∧ (AVBD.update AVBD.qops0 1 solver0).1.accum = 1 - 2 / 60) := by
  constructor
  · intro ops realDt fd s hfd hpos hacc hdt
    unfold AVBD.update
    rw [hfd]
    dsimp only
    obtain ⟨h1, h2, h3, h4⟩ := AVBD.substeps_spec ops s.gravity fd s.maxSubsteps
      (s.accum + realDt) s.rigidbodies
    exact ⟨h2, h3 (by linarith) hpos, h4⟩
  · constructor <;>
      norm_num [AVBD.update, solver0, AVBD.mkSolver, AVBD.substeps, AVBD.stepBodies]

/-- Witness for C4 on the fresh solver with one second of real time. -/
theorem C4_witness :
    (solver0.fixedDt = some (1 / 60) ∧ (0 : ℚ) < 1 / 60 ∧ (0 : ℚ) ≤ solver0.accum
      ∧ (0 : ℚ) ≤ 1)
    ∧ (AVBD.update AVBD.qops0 1 solver0).1.accum
        = solver0.accum + 1 - (AVBD.update AVBD.qops0 1 solver0).2.1 * (1 / 60) := by
  have hfd : solver0.fixedDt = some (1 / 60) := by norm_num [solver0, AVBD.mkSolver]
  have hacc : (0 : ℚ) ≤ solver0.accum := by norm_num [solver0, AVBD.mkSolver]
  exact ⟨⟨hfd, by norm_num, hacc, by norm_num⟩,
    (C4_accumulator_invariant.1 AVBD.qops0 1 (1 / 60) solver0 hfd (by norm_num)
      hacc (by norm_num)).1⟩
